import Mathlib

/-!
Verification of the go-httplib library: a shallow embedding of the
HTTP server runner (graceful shutdown and signal coordination), the
response rendering helpers, the JSON request body decoder and the
context-carried request log, together with theorems settling the
specified properties.
-/

set_option linter.unusedVariables false

namespace GoHttplib

/-! ### Go error values

A Go error value is modelled as an inductive type; a Go variable of
type error, which may be nil, is an `Option GoErr`.
`serverClosed` stands for the sentinel `http.ErrServerClosed`,
`errorString` for an error built by errors.New or fmt.Errorf,
`wrap` for an error wrapping another one (fmt.Errorf with the w verb,
net.OpError and similar), and `joined` for the error value produced by
errors.Join from its non-nil arguments. -/

inductive GoErr where
  | serverClosed
  | errorString (msg : String)
  | wrap (msg : String) (inner : GoErr)
  | joined (errs : List GoErr)

mutual

/-- Structural equality of Go error values: the equality comparison that
errors.Is performs on comparable error values. -/
def GoErr.beq : GoErr → GoErr → Bool
  | .serverClosed, .serverClosed => true
  | .errorString a, .errorString b => a == b
  | .wrap a i, .wrap b j => a == b && GoErr.beq i j
  | .joined xs, .joined ys => GoErr.beqList xs ys
  | _, _ => false

/-- Pointwise equality of lists of Go error values. -/
def GoErr.beqList : List GoErr → List GoErr → Bool
  | [], [] => true
  | x :: xs, y :: ys => GoErr.beq x y && GoErr.beqList xs ys
  | _, _ => false

end

/-- errors.Is from the Go standard library: the target is found either by
direct equality or somewhere along the unwrap chain; a joined error
unwraps to every member of its list. -/
def GoErr.is : GoErr → GoErr → Bool
  | .wrap msg inner, target =>
    GoErr.beq (.wrap msg inner) target || GoErr.is inner target
  | .joined errs, target =>
    GoErr.beq (.joined errs) target ||
      errs.attach.any (fun x => GoErr.is x.1 target)
  | e, target => GoErr.beq e target
termination_by e _ => sizeOf e
decreasing_by
  all_goals simp_wf
  all_goals
    have h := List.sizeOf_lt_of_mem x.2
    omega

/-- errors.Join: nil arguments are discarded; the result is nil when every
argument is nil and otherwise an error holding the non-nil arguments. -/
def errorsJoin (errs : List (Option GoErr)) : Option GoErr :=
  let nonNil := errs.filterMap id
  if nonNil.isEmpty then none else some (.joined nonNil)

/-! ### Context model

The contexts appearing in the runner code are modelled syntactically;
their observable behaviour (doneness, deadline) is evaluated against a
`CtxWorld` recording which external events have happened. -/

/-- External events a context can observe.
`callerCancelled` and `callerDeadlineExpired`: the context supplied by
the caller of Run was cancelled, or its own deadline elapsed.
`signalReceived`: a SIGTERM or os.Interrupt signal was delivered while
the signal.NotifyContext registration was active.
`stopCalled`: the stop function returned by signal.NotifyContext was
invoked.
`shutdownTimeoutExpired`: the deadline installed by context.WithTimeout
in Shutdown elapsed. -/
structure CtxWorld where
  callerCancelled : Bool
  callerDeadlineExpired : Bool
  signalReceived : Bool
  stopCalled : Bool
  shutdownTimeoutExpired : Bool
deriving DecidableEq, Repr, Inhabited

/-- Model of a Go context.Context as built by the embedded code:
`background` is context.Background(); `caller` is an arbitrary context
supplied by the caller of Run, carrying an optional deadline;
`withoutCancel` is context.WithoutCancel(parent); `withTimeout` is
context.WithTimeout(parent, timeout); `notifyCtx` is the context
returned by signal.NotifyContext(parent, SIGTERM, os.Interrupt). -/
inductive Ctx where
  | background
  | caller (deadline : Option Int)
  | withoutCancel (parent : Ctx)
  | withTimeout (parent : Ctx) (timeout : Int)
  | notifyCtx (parent : Ctx)
deriving DecidableEq, Repr, Inhabited

/-- Whether the Done channel of the context is closed in the given world.
context.Background is never done; a caller context is done when it was
cancelled or its deadline expired; context.WithoutCancel is never done
on its own account (it detaches from the parent entirely);
context.WithTimeout is done when its parent is done or its deadline
elapsed; the context of signal.NotifyContext is done when its parent is
done, a registered signal arrived, or the stop function was called
(per the documentation of os/signal.NotifyContext). -/
def Ctx.done (w : CtxWorld) : Ctx → Bool
  | .background => false
  | .caller _ => w.callerCancelled || w.callerDeadlineExpired
  | .withoutCancel _ => false
  | .withTimeout parent _ => parent.done w || w.shutdownTimeoutExpired
  | .notifyCtx parent => parent.done w || w.signalReceived || w.stopCalled

/-- The deadline carried by the context. context.WithoutCancel removes
the deadline of the parent; context.WithTimeout installs its own
deadline, capped by the deadline of the parent if there is one;
signal.NotifyContext passes the deadline of the parent through. -/
def Ctx.deadline : Ctx → Option Int
  | .background => none
  | .caller d => d
  | .withoutCancel _ => none
  | .withTimeout parent t =>
    match parent.deadline with
    | none => some t
    | some d => some (min d t)
  | .notifyCtx parent => parent.deadline

/-! ### The HTTP server runner (package runner) -/

/-- A Go panic value: the code panics with an error value or a string. -/
inductive PanicVal where
  | ofErr (e : GoErr)
  | ofString (s : String)

/-- Result of executing a piece of Go code: a normal return with a value,
or a panic carrying the recovered value. -/
inductive ExecResult (α : Type) where
  | ok (val : α)
  | panicked (rvr : PanicVal)

/-- Behaviour of one invocation of a callback: it returns normally or it
panics with the given value. -/
inductive CallbackBehavior where
  | returns
  | panics (rvr : PanicVal)

/-- Behavioural model of the underlying *http.Server: its configured
address, the outcome of calling ListenAndServe (which blocks and then
returns an error - possibly nil - or panics), and the error returned by
Server.Shutdown as a function of the context it is given. -/
structure Server where
  addr : String
  listenAndServe : ExecResult (Option GoErr)
  shutdownResult : Ctx → Option GoErr

/-- The struct httpServerRunner of package runner. The two callbacks are
modelled by their behaviour at each argument. -/
structure httpServerRunner where
  server : Server
  onError : GoErr → CallbackBehavior
  onPanic : PanicVal → CallbackBehavior

/-- The no-op error callback substituted for a nil onError. -/
def noopOnError : GoErr → CallbackBehavior := fun _ => .returns

/-- The no-op panic callback substituted for a nil onPanic. -/
def noopOnPanic : PanicVal → CallbackBehavior := fun _ => .returns

/-- NewHTTPServerRunner. A nil *http.Server argument is `none`; nil
callback arguments are `none`. The function panics when server is nil
and otherwise replaces each nil callback by a no-op. -/
def NewHTTPServerRunner (server : Option Server)
    (onError : Option (GoErr → CallbackBehavior))
    (onPanic : Option (PanicVal → CallbackBehavior)) :
    ExecResult httpServerRunner :=
  match server with
  | none => .panicked (.ofString ("server is nil"))
  | some server =>
    let onError := match onError with
      | none => noopOnError
      | some f => f
    let onPanic := match onPanic with
      | none => noopOnPanic
      | some f => f
    .ok { server := server, onError := onError, onPanic := onPanic }

/-- Addr returns the address of the underlying server. -/
def httpServerRunner.Addr (r : httpServerRunner) : String :=
  r.server.addr

/-- The calls recorded while the goroutine launched by Run executes:
each invocation of the error sink and of the panic sink together with
the context it was given, and a panic value that escaped the goroutine
(which would crash the process) if any. -/
structure GoroutineEvents where
  onErrorCalls : List (Ctx × GoErr)
  onPanicCalls : List (Ctx × PanicVal)
  propagated : Option PanicVal

/-- The body of the goroutine launched by Run, before the deferred
recover is taken into account: run srvErr := r.server.ListenAndServe();
when srvErr is non-nil and errors.Is(srvErr, http.ErrServerClosed) does
not hold, invoke the error sink with srvErr. The result records whether
the body returned normally or panicked, and the error sink invocations
made. -/
def acceptLoopBody (server : Server) (onError : GoErr → CallbackBehavior)
    (ctx : Ctx) : ExecResult Unit × List (Ctx × GoErr) :=
  match server.listenAndServe with
  | .panicked rvr => (.panicked rvr, [])
  | .ok none => (.ok (), [])
  | .ok (some srvErr) =>
    if srvErr.is GoErr.serverClosed then (.ok (), [])
    else
      match onError srvErr with
      | .returns => (.ok (), [(ctx, srvErr)])
      | .panics rvr => (.panicked rvr, [(ctx, srvErr)])

/-- The goroutine launched by Run including its deferred function: if
the body panicked, recover yields the (non-nil) panic value and the
panic sink is invoked with the completion context and that value; a
panic raised by the panic sink itself is not recovered and escapes the
goroutine. -/
def runGoroutine (r : httpServerRunner) (ctx : Ctx) : GoroutineEvents :=
  let body := acceptLoopBody r.server r.onError ctx
  match body.1 with
  | .ok _ =>
    { onErrorCalls := body.2, onPanicCalls := [], propagated := none }
  | .panicked rvr =>
    match r.onPanic rvr with
    | .returns =>
      { onErrorCalls := body.2, onPanicCalls := [(ctx, rvr)], propagated := none }
    | .panics rvr2 =>
      { onErrorCalls := body.2, onPanicCalls := [(ctx, rvr)], propagated := some rvr2 }

/-- What Run produces: the completion context it returns and the events
of the goroutine it launches. The stop function it returns is modelled
by the stopCalled field of CtxWorld. -/
structure RunResult where
  completionCtx : Ctx
  goroutine : GoroutineEvents

/-- Run: ctx = context.WithoutCancel(ctx); ctx, stop =
signal.NotifyContext(ctx, SIGTERM, os.Interrupt); launch the goroutine;
return ctx and stop. -/
def httpServerRunner.Run (r : httpServerRunner) (ctx : Ctx) : RunResult :=
  let ctx := Ctx.withoutCancel ctx
  let ctx := Ctx.notifyCtx ctx
  { completionCtx := ctx, goroutine := runGoroutine r ctx }

/-- Shutdown: ctx = context.Background(); when timeout <= 0 call
r.server.Shutdown(ctx) directly; otherwise derive ctx, cancel =
context.WithTimeout(ctx, timeout) and call r.server.Shutdown(ctx).
The timeout is a time.Duration, i.e. an integer number of nanoseconds. -/
def httpServerRunner.Shutdown (r : httpServerRunner) (timeout : Int) :
    Option GoErr :=
  let ctx := Ctx.background
  if timeout ≤ 0 then
    r.server.shutdownResult ctx
  else
    let ctx := Ctx.withTimeout ctx timeout
    r.server.shutdownResult ctx

/-! ### Response rendering (response.go, response_body_writer.go)

The http.ResponseWriter is modelled by the header map, the status code
written (if any) and the accumulated body bytes. A body renderer (the
ResponseBodyRenderer interface) is modelled behaviourally: RenderHeader
transforms the header map and returns an error, RenderBody writes a
fixed sequence of bytes to the writer it receives and returns an
error. -/

/-- An HTTP header map, as a list of key and value pairs. -/
def Header := List (String × String)

/-- http.Header.Set: replace the value stored under the key, or append
the pair when the key is absent. -/
def Header.set : Header → String → String → Header
  | [], key, val => [(key, val)]
  | (k, v) :: rest, key, val =>
    if k = key then (key, val) :: rest
    else (k, v) :: Header.set rest key val

/-- Model of http.ResponseWriter: the header map, the status code passed
to WriteHeader if it was called, and the body bytes written so far. -/
structure ResponseWriter where
  header : Header
  status : Option Int
  body : String

/-- responseBodyWriter: wraps the ResponseWriter and counts the bytes
written through it. -/
structure responseBodyWriter where
  w : ResponseWriter
  responseSize : Int

/-- The Write method of responseBodyWriter: forward to the underlying
writer (which accepts all bytes) and add the count to responseSize. -/
def responseBodyWriter.write (bw : responseBodyWriter) (b : String) :
    responseBodyWriter :=
  { w := { bw.w with body := bw.w.body ++ b },
    responseSize := bw.responseSize + b.length }

/-- Behavioural model of the ResponseBodyRenderer interface:
renderHeader maps the current header to the new header and the returned
error; renderBody is the pair of the bytes it writes through the writer
it is given and the error it returns. -/
structure ResponseBodyRenderer where
  renderHeader : Header → Header × Option GoErr
  renderBody : String × Option GoErr

/-- The part of ResponseLog that renderResponse assembles (HandlerInfo,
taken from runtime caller introspection, is outside the model). -/
structure ResponseLog where
  statusCode : Int
  responseSize : Int
  error : Option GoErr

/-- The observable outcome of renderResponse: the final writer, the
ResponseLog stored through the pointer carried by the context (when the
context carries one), whether RenderHeader and RenderBody were invoked,
and the returned error. -/
structure RenderResult where
  writer : ResponseWriter
  responseLog : Option ResponseLog
  headerRendered : Bool
  bodyRendered : Bool
  err : Option GoErr

/-- renderResponse. `hasResPtr` states whether the context carries a
non-nil ResponseLog pointer. A nil bodyRenderer interface value is
`none`. The function mirrors the source: RenderHeader first (recording
its error), then w.WriteHeader(statusCode), then RenderBody through a
responseBodyWriter (joining its error with errors.Join), then the
ResponseLog assignment, and finally the accumulated error is
returned. -/
def renderResponse (hasResPtr : Bool) (w : ResponseWriter)
    (statusCode : Int) (bodyRenderer : Option ResponseBodyRenderer)
    (cause : Option GoErr) : RenderResult :=
  let err : Option GoErr := none
  let step1 :=
    match bodyRenderer with
    | none => (w, err, false)
    | some br =>
      let hdr := br.renderHeader w.header
      let w := { w with header := hdr.1 }
      let err := match hdr.2 with
        | some headerErr => some headerErr
        | none => err
      (w, err, true)
  let w := step1.1
  let err := step1.2.1
  let headerRendered := step1.2.2
  let w := { w with status := some statusCode }
  let size : Int := 0
  let step2 :=
    match bodyRenderer with
    | none => (w, err, size, false)
    | some br =>
      let wrapped : responseBodyWriter := { w := w, responseSize := 0 }
      let wrapped := wrapped.write br.renderBody.1
      let err := match br.renderBody.2 with
        | some bodyErr => errorsJoin [err, some bodyErr]
        | none => err
      (wrapped.w, err, wrapped.responseSize, true)
  let w := step2.1
  let err := step2.2.1
  let size := step2.2.2.1
  let bodyRendered := step2.2.2.2
  let responseLog :=
    if hasResPtr then
      some { statusCode := statusCode, responseSize := size, error := cause }
    else none
  { writer := w, responseLog := responseLog,
    headerRendered := headerRendered, bodyRendered := bodyRendered,
    err := err }

/-- renderStatusCode: renderResponse with a nil body renderer, its error
discarded (the comment in the source notes no error can occur). -/
def renderStatusCode (hasResPtr : Bool) (w : ResponseWriter)
    (statusCode : Int) (cause : Option GoErr) : RenderResult :=
  renderResponse hasResPtr w statusCode none cause

/-- renderWithBody forwards to renderResponse. -/
def renderWithBody (hasResPtr : Bool) (w : ResponseWriter)
    (statusCode : Int) (bodyRenderer : Option ResponseBodyRenderer)
    (cause : Option GoErr) : RenderResult :=
  renderResponse hasResPtr w statusCode bodyRenderer cause

/-- RenderOKWithBody: renderWithBody with status 200 and a nil cause. -/
def RenderOKWithBody (hasResPtr : Bool) (w : ResponseWriter)
    (bodyRenderer : Option ResponseBodyRenderer) : RenderResult :=
  renderWithBody hasResPtr w 200 bodyRenderer none

/-- RenderCreatedWithBody: renderWithBody with status 201 and a nil
cause. -/
def RenderCreatedWithBody (hasResPtr : Bool) (w : ResponseWriter)
    (bodyRenderer : Option ResponseBodyRenderer) : RenderResult :=
  renderWithBody hasResPtr w 201 bodyRenderer none

/-- RenderBadRequestWithBody: renderWithBody with status 400 and the
given cause. -/
def RenderBadRequestWithBody (hasResPtr : Bool) (w : ResponseWriter)
    (bodyRenderer : Option ResponseBodyRenderer) (cause : Option GoErr) :
    RenderResult :=
  renderWithBody hasResPtr w 400 bodyRenderer cause

/-! ### JSON request body decoding (DecodeJSONRequestBody)

The target type T is modelled by a type descriptor `GoTy` covering the
shapes exercised by the library tests (strings, integers, booleans,
slices and structs with JSON field names); values of those types are
`GoVal`. Decoding follows encoding/json with DisallowUnknownFields: a
JSON null leaves the destination unchanged, a kind mismatch or an
unknown object field is an error. -/

/-- A parsed JSON value (numbers restricted to integers, which is all
the precision the claims need). -/
inductive Json where
  | null
  | boolean (b : Bool)
  | num (n : Int)
  | str (s : String)
  | arr (elems : List Json)
  | obj (fields : List (String × Json))

/-- Descriptor of the Go target type T of the decode. -/
inductive GoTy where
  | string
  | int
  | bool
  | slice (elem : GoTy)
  | strukt (fields : List (String × GoTy))

/-- A Go value of one of the modelled types. A slice value distinguishes
the nil slice (`none`) from concrete element lists. -/
inductive GoVal where
  | str (s : String)
  | int (n : Int)
  | bool (b : Bool)
  | slice (elems : Option (List GoVal))
  | strukt (fields : List (String × GoVal))

/-- The zero value of a Go type: the empty string, zero, false, the nil
slice, and the struct of zero values. -/
def GoTy.zero : GoTy → GoVal
  | .string => .str ""
  | .int => .int 0
  | .bool => .bool false
  | .slice _ => .slice none
  | .strukt fields =>
    .strukt (fields.attach.map (fun x => (x.1.1, GoTy.zero x.1.2)))
decreasing_by
  simp_wf
  obtain ⟨⟨n, ty⟩, hm⟩ := x
  have h := List.sizeOf_lt_of_mem hm
  simp [Prod.mk.sizeOf_spec] at h ⊢
  omega

/-- Look up the type of the struct field with the given JSON name. -/
def lookupFieldTy (name : String) : List (String × GoTy) → Option GoTy
  | [] => none
  | (n, ty) :: rest => if n = name then some ty else lookupFieldTy name rest

/-- The current value of the named field of a struct value. -/
def getFieldVal (name : String) (fallback : GoVal) :
    List (String × GoVal) → GoVal
  | [] => fallback
  | (n, v) :: rest => if n = name then v else getFieldVal name fallback rest

/-- Replace the value of the named field of a struct value. -/
def setFieldVal (name : String) (newVal : GoVal) :
    List (String × GoVal) → List (String × GoVal)
  | [] => []
  | (n, v) :: rest =>
    if n = name then (n, newVal) :: rest
    else (n, v) :: setFieldVal name newVal rest

mutual

/-- encoding/json decoding of a JSON value into a destination of the
given type holding the given current value, with DisallowUnknownFields
set. JSON null leaves the destination unchanged; arrays build a fresh
slice from the zero value of the element type; objects assign the
fields present, erroring on names the struct does not declare; any kind
mismatch is an error. -/
def decodeInto : GoTy → GoVal → Json → Except String GoVal
  | _, cur, .null => .ok cur
  | .string, _, .str s => .ok (.str s)
  | .int, _, .num n => .ok (.int n)
  | .bool, _, .boolean b => .ok (.bool b)
  | .slice elemTy, _, .arr elems =>
    match decodeElems elemTy elems with
    | .error msg => .error msg
    | .ok vs => .ok (.slice (some vs))
  | .strukt fieldTys, cur, .obj jfields =>
    let curFields := match cur with
      | .strukt fs => fs
      | _ => []
    match decodeFields fieldTys curFields jfields with
    | .error msg => .error msg
    | .ok fs => .ok (.strukt fs)
  | _, _, _ => .error ("json: cannot unmarshal value into Go value")

/-- Decode every element of a JSON array into the element type, each
starting from the zero value of that type. -/
def decodeElems (elemTy : GoTy) : List Json → Except String (List GoVal)
  | [] => .ok []
  | j :: rest =>
    match decodeInto elemTy (GoTy.zero elemTy) j with
    | .error msg => .error msg
    | .ok v =>
      match decodeElems elemTy rest with
      | .error msg => .error msg
      | .ok vs => .ok (v :: vs)

/-- Decode the fields of a JSON object into a struct value, one field at
a time; a JSON name that no struct field declares is an error because
DisallowUnknownFields is set. -/
def decodeFields (fieldTys : List (String × GoTy))
    (curFields : List (String × GoVal)) :
    List (String × Json) → Except String (List (String × GoVal))
  | [] => .ok curFields
  | (name, jv) :: rest =>
    match lookupFieldTy name fieldTys with
    | none => .error ("json: unknown field " ++ name)
    | some fty =>
      match decodeInto fty (getFieldVal name (GoTy.zero fty) curFields) jv with
      | .error msg => .error msg
      | .ok v => decodeFields fieldTys (setFieldVal name v curFields) rest

end

/-- The maximum number of request body bytes read, 1 MB. -/
def DefaultMaxRequestBodySize : Nat := 1 <<< 20

/-- Model of the request body handed to the JSON decoder: the byte
length of the JSON value the decoder reads, and its parse (`none` for
an empty body or malformed JSON text). -/
structure RequestBody where
  len : Nat
  parsed : Option Json

/-- DecodeJSONRequestBody. The body is read through
http.MaxBytesReader(nil, r.Body, DefaultMaxRequestBodySize), so a value
longer than the limit fails with http.MaxBytesError mid-decode; an
empty or malformed body fails with a syntax error; otherwise the value
is decoded into var t T starting from the zero value. On any decoder
error the function returns a freshly declared zero value together with
the error, discarding t. -/
def DecodeJSONRequestBody (ty : GoTy) (body : RequestBody) :
    GoVal × Option GoErr :=
  if DefaultMaxRequestBodySize < body.len then
    (ty.zero, some (.errorString ("http: request body too large")))
  else
    match body.parsed with
    | none => (ty.zero, some (.errorString ("unexpected end of JSON input")))
    | some j =>
      match decodeInto ty ty.zero j with
      | .error msg => (ty.zero, some (.errorString msg))
      | .ok t => (t, none)

/-! ### Context-carried request log (context.go)

WithRequestLog stores a pointer to a copy of its RequestLog argument;
pointers are modelled as indices into a heap of RequestLog cells, so
that mutation of the cell holding the callers variable is expressible
and distinguishable from the fresh cell the function allocates. -/

/-- RequestLog (response_log.go): structured request information. The
timestamp (a time.Time) is modelled as an integer instant. -/
structure RequestLog where
  timestamp : Int
  method : String
  url : String
  contentLength : Int
  proto : String
  host : String
  remoteAddr : String
  userAgent : String
  requestURI : String
  referer : String
deriving DecidableEq, Repr

/-- The zero RequestLog, returned when the context carries none. -/
def RequestLog.zero : RequestLog :=
  { timestamp := 0, method := "", url := "", contentLength := 0,
    proto := "", host := "", remoteAddr := "", userAgent := "",
    requestURI := "", referer := "" }

/-- A heap of RequestLog cells; a pointer is an index into the list. -/
structure Heap where
  cells : List RequestLog
deriving DecidableEq, Repr

/-- Indexing with a default value for out-of-range indices. -/
def listGetD {α : Type} : List α → Nat → α → α
  | [], _, d => d
  | x :: _, 0, _ => x
  | _ :: xs, n + 1, d => listGetD xs n d

/-- Replace the element at an index, leaving the list unchanged when
the index is out of range. -/
def listSet {α : Type} : List α → Nat → α → List α
  | [], _, _ => []
  | _ :: xs, 0, b => b :: xs
  | x :: xs, n + 1, b => x :: listSet xs n b

/-- Allocate a fresh cell holding the given value; returns the new heap
and the pointer to the cell. -/
def Heap.alloc (h : Heap) (v : RequestLog) : Heap × Nat :=
  ({ cells := h.cells ++ [v] }, h.cells.length)

/-- Dereference a pointer (every pointer in use is in range). -/
def Heap.read (h : Heap) (p : Nat) : RequestLog :=
  listGetD h.cells p RequestLog.zero

/-- Overwrite the cell a pointer designates (mutation through a Go
variable or pointer). -/
def Heap.write (h : Heap) (p : Nat) (v : RequestLog) : Heap :=
  { cells := listSet h.cells p v }

/-- The private contextKey constants of the package. -/
inductive contextKey where
  | requestLog
  | responseLog
  | latency
deriving DecidableEq, Repr

/-- A dynamic value stored in a context under one of the keys:
a *RequestLog pointer (`none` is a nil pointer), or a value of some
other dynamic type, for which the type assertion to *RequestLog
fails. -/
inductive CtxValue where
  | reqLogPtr (p : Option Nat)
  | otherValue (tag : String)
deriving DecidableEq, Repr

/-- A context with respect to its stored values: an empty root or
context.WithValue layers. -/
inductive VCtx where
  | base
  | withValue (parent : VCtx) (key : contextKey) (val : CtxValue)
deriving DecidableEq, Repr

/-- ctx.Value(key): the innermost layer for the key wins. -/
def VCtx.value : VCtx → contextKey → Option CtxValue
  | .base, _ => none
  | .withValue parent k v, key =>
    if k = key then some v else parent.value key

/-- WithRequestLog: the requestLog parameter is already a copy of the
callers value (Go passes the struct by value); taking its address
allocates a fresh cell holding that copy, and
context.WithValue(ctx, contextKeyRequestLog, pointer) is returned. -/
def WithRequestLog (h : Heap) (ctx : VCtx) (requestLog : RequestLog) :
    Heap × VCtx :=
  let alloc := h.alloc requestLog
  (alloc.1, .withValue ctx .requestLog (.reqLogPtr (some alloc.2)))

/-- GetRequestLogFromContext: type-assert the stored value to
*RequestLog; when the assertion fails or the pointer is nil, return the
zero RequestLog, otherwise return the pointed-to value. -/
def GetRequestLogFromContext (h : Heap) (ctx : VCtx) : RequestLog :=
  match ctx.value .requestLog with
  | some (.reqLogPtr (some p)) => h.read p
  | some (.reqLogPtr none) => RequestLog.zero
  | _ => RequestLog.zero

/-! ### Concrete fixtures used by witnesses and counterexamples -/

/-- The error ListenAndServe returns when the address is in use. -/
def bindError : GoErr :=
  .wrap ("listen tcp 127.0.0.1:8080")
    (.errorString ("bind: address already in use"))

/-- A server whose accept loop fails to bind and whose graceful
shutdown succeeds exactly when the context carries no deadline. -/
def sampleServer : Server :=
  { addr := "127.0.0.1:8080"
  , listenAndServe := .ok (some bindError)
  , shutdownResult := fun ctx =>
      match ctx.deadline with
      | none => none
      | some _ => some (.errorString ("context deadline exceeded")) }

/-- A runner over sampleServer whose error sink panics with the error it
received and whose panic sink returns normally. -/
def sampleRunner : httpServerRunner :=
  { server := sampleServer
  , onError := fun e => .panics (.ofErr e)
  , onPanic := fun _ => .returns }

/-- A runner whose accept loop ends with http.ErrServerClosed, the
expected outcome of a graceful shutdown. -/
def closedRunner : httpServerRunner :=
  { server :=
      { addr := "127.0.0.1:8081"
      , listenAndServe := .ok (some .serverClosed)
      , shutdownResult := fun _ => none }
  , onError := fun _ => .returns
  , onPanic := fun _ => .returns }

/-- The world in which only the stop function has been invoked: no
signal was delivered, the caller context is alive, no deadline
elapsed. -/
def stopOnlyWorld : CtxWorld :=
  { callerCancelled := false, callerDeadlineExpired := false,
    signalReceived := false, stopCalled := true,
    shutdownTimeoutExpired := false }

/-! ### Claim theorems: the runner -/

/-- C1: for every timeout t <= 0, Shutdown issues the underlying
graceful-shutdown call with context.Background - a context that carries
no deadline and is never done (no cancellation), so the drain waits
indefinitely - and returns exactly the error that call returns. -/
theorem shutdown_nonpositive_background (r : httpServerRunner)
    (t : Int) (w : CtxWorld) (h : t ≤ 0) :
    r.Shutdown t = r.server.shutdownResult Ctx.background ∧
    Ctx.deadline Ctx.background = none ∧
    Ctx.done w Ctx.background = false := by
  refine ⟨?_, rfl, rfl⟩
  simp [httpServerRunner.Shutdown, if_pos h]

/-- Witness for C1: timeout 0 on a concrete runner and world. -/
theorem shutdown_nonpositive_background_witness :
    sampleRunner.Shutdown 0 = sampleRunner.server.shutdownResult Ctx.background ∧
    Ctx.deadline Ctx.background = none ∧
    Ctx.done stopOnlyWorld Ctx.background = false :=
  shutdown_nonpositive_background sampleRunner 0 stopOnlyWorld (by decide)

/-- C5: for every timeout t > 0, Shutdown issues the underlying
graceful-shutdown call with context.WithTimeout(context.Background, t):
the context carries deadline t derived from a fresh background root,
and its doneness depends only on that deadline elapsing - cancellation
of the caller context, signals or the stop function cannot make it
done. -/
theorem shutdown_positive_fresh_timeout (r : httpServerRunner)
    (t : Int) (w : CtxWorld) (h : 0 < t) :
    r.Shutdown t = r.server.shutdownResult (Ctx.withTimeout Ctx.background t) ∧
    Ctx.deadline (Ctx.withTimeout Ctx.background t) = some t ∧
    Ctx.done w (Ctx.withTimeout Ctx.background t) = w.shutdownTimeoutExpired := by
  refine ⟨?_, rfl, ?_⟩
  · have h2 : ¬ t ≤ 0 := not_le.mpr h
    simp [httpServerRunner.Shutdown, if_neg h2]
  · simp [Ctx.done]

/-- Witness for C5: timeout 3 on a concrete runner and a world in which
the caller context is cancelled. -/
theorem shutdown_positive_fresh_timeout_witness :
    sampleRunner.Shutdown 3 =
      sampleRunner.server.shutdownResult (Ctx.withTimeout Ctx.background 3) ∧
    Ctx.deadline (Ctx.withTimeout Ctx.background 3) = some 3 ∧
    Ctx.done stopOnlyWorld (Ctx.withTimeout Ctx.background 3) =
      stopOnlyWorld.shutdownTimeoutExpired :=
  shutdown_positive_fresh_timeout sampleRunner 3 stopOnlyWorld (by decide)

/-- C7: Run strips any cancellation or deadline of the parent context:
the completion context carries no deadline, and in every world it is
done exactly when a termination signal was delivered or the stop
function was invoked - never because the caller context was cancelled
or expired. -/
theorem run_ctx_independent_of_parent (r : httpServerRunner)
    (parent : Ctx) (w : CtxWorld) :
    Ctx.deadline (r.Run parent).completionCtx = none ∧
    Ctx.done w (r.Run parent).completionCtx =
      (w.signalReceived || w.stopCalled) := by
  constructor
  · rfl
  · show Ctx.done w (Ctx.notifyCtx (Ctx.withoutCancel parent)) = _
    simp [Ctx.done]

/-- C2 counterexample: in the world in which the stop function was
invoked but no termination signal was ever received, the completion
context returned by Run is done - refuting the claim that invoking the
returned stopFn does not itself mark the completion context done unless
a signal had already been received. -/
theorem stopFn_no_cancel_counterexample :
    Ctx.done stopOnlyWorld ((sampleRunner.Run (Ctx.caller none)).completionCtx) = true ∧
    stopOnlyWorld.signalReceived = false ∧
    stopOnlyWorld.callerCancelled = false := by
  exact ⟨rfl, rfl, rfl⟩

/-- C2 (amended): invoking the returned stopFn stops signal interception
and in addition cancels the completion context: in every world in which
the stop function has been invoked, the completion context is done,
whether or not a termination signal was received (the documented
behaviour of signal.NotifyContext). -/
theorem stopFn_cancels_completion_ctx (r : httpServerRunner)
    (parent : Ctx) (w : CtxWorld) (h : w.stopCalled = true) :
    Ctx.done w (r.Run parent).completionCtx = true := by
  show Ctx.done w (Ctx.notifyCtx (Ctx.withoutCancel parent)) = true
  simp [Ctx.done, h]

/-- Witness for the amended C2 on a concrete runner, parent and world. -/
theorem stopFn_cancels_completion_ctx_witness :
    Ctx.done stopOnlyWorld ((closedRunner.Run Ctx.background).completionCtx) = true :=
  stopFn_cancels_completion_ctx closedRunner Ctx.background stopOnlyWorld rfl

/-- C6: NewHTTPServerRunner panics exactly when the given server is
nil; for a non-nil server construction succeeds, and a nil onError or
onPanic callback is replaced by the corresponding no-op, so both
callbacks of every constructed runner are callable. -/
theorem new_runner_nil_handling (s : Server)
    (oe : Option (GoErr → CallbackBehavior))
    (op : Option (PanicVal → CallbackBehavior)) :
    NewHTTPServerRunner none oe op = .panicked (.ofString ("server is nil")) ∧
    NewHTTPServerRunner (some s) oe op =
      .ok { server := s, onError := oe.getD noopOnError,
            onPanic := op.getD noopOnPanic } := by
  refine ⟨rfl, ?_⟩
  cases oe <;> cases op <;> rfl

/-- C3: when ListenAndServe terminates by returning error e, the error
sink is invoked - with the completion context and e itself - exactly
when e is non-nil and errors.Is(e, http.ErrServerClosed) does not hold;
when the loop ends with the expected-close error, the panic sink is not
invoked either. -/
theorem accept_loop_error_forwarding (r : httpServerRunner)
    (parent : Ctx) (e : Option GoErr)
    (h : r.server.listenAndServe = .ok e) :
    (r.Run parent).goroutine.onErrorCalls =
      (match e with
       | none => []
       | some srvErr =>
         if srvErr.is GoErr.serverClosed then []
         else [((r.Run parent).completionCtx, srvErr)]) ∧
    (match e with
     | none => (r.Run parent).goroutine.onPanicCalls = []
     | some srvErr =>
       if srvErr.is GoErr.serverClosed then
         (r.Run parent).goroutine.onPanicCalls = []
       else True) := by
  cases e with
  | none => simp [httpServerRunner.Run, runGoroutine, acceptLoopBody, h]
  | some srvErr =>
    cases hc : srvErr.is GoErr.serverClosed with
    | true =>
      simp [httpServerRunner.Run, runGoroutine, acceptLoopBody, h, hc]
    | false =>
      cases hb : r.onError srvErr with
      | returns =>
        simp [httpServerRunner.Run, runGoroutine, acceptLoopBody, h, hc, hb]
      | panics rvr =>
        cases hp : r.onPanic rvr <;>
          simp [httpServerRunner.Run, runGoroutine, acceptLoopBody, h, hc, hb, hp]

/-- Witness for C3: the accept loop of a concrete runner ends with
http.ErrServerClosed and neither sink is invoked. -/
theorem accept_loop_error_forwarding_witness :
    (closedRunner.Run Ctx.background).goroutine.onErrorCalls =
      (match (some GoErr.serverClosed : Option GoErr) with
       | none => []
       | some srvErr =>
         if srvErr.is GoErr.serverClosed then []
         else [((closedRunner.Run Ctx.background).completionCtx, srvErr)]) ∧
    (match (some GoErr.serverClosed : Option GoErr) with
     | none => (closedRunner.Run Ctx.background).goroutine.onPanicCalls = []
     | some srvErr =>
       if srvErr.is GoErr.serverClosed then
         (closedRunner.Run Ctx.background).goroutine.onPanicCalls = []
       else True) :=
  accept_loop_error_forwarding closedRunner Ctx.background
    (some GoErr.serverClosed) rfl

/-- C4: every panic raised inside the goroutine - whether by
ListenAndServe or by the error sink handling a listen failure - is
recovered and forwarded exactly once to the panic sink together with
the completion context, and, the panic sink returning normally, no
panic escapes the goroutine (the process does not crash). -/
theorem accept_loop_panic_recovery (r : httpServerRunner) (parent : Ctx)
    (h : ∀ rvr, r.onPanic rvr = CallbackBehavior.returns) :
    (match r.server.listenAndServe with
     | .panicked rvr =>
       (r.Run parent).goroutine.onPanicCalls =
         [((r.Run parent).completionCtx, rvr)]
     | .ok none => (r.Run parent).goroutine.onPanicCalls = []
     | .ok (some srvErr) =>
       if srvErr.is GoErr.serverClosed then
         (r.Run parent).goroutine.onPanicCalls = []
       else
         match r.onError srvErr with
         | .returns => (r.Run parent).goroutine.onPanicCalls = []
         | .panics rvr =>
           (r.Run parent).goroutine.onPanicCalls =
             [((r.Run parent).completionCtx, rvr)]) ∧
    (r.Run parent).goroutine.propagated = none := by
  cases hl : r.server.listenAndServe with
  | panicked rvr =>
    exact ⟨by simp [httpServerRunner.Run, runGoroutine, acceptLoopBody, hl, h rvr],
           by simp [httpServerRunner.Run, runGoroutine, acceptLoopBody, hl, h rvr]⟩
  | ok e =>
    cases e with
    | none =>
      exact ⟨by simp [httpServerRunner.Run, runGoroutine, acceptLoopBody, hl],
             by simp [httpServerRunner.Run, runGoroutine, acceptLoopBody, hl]⟩
    | some srvErr =>
      cases hc : srvErr.is GoErr.serverClosed with
      | true =>
        exact ⟨by simp [httpServerRunner.Run, runGoroutine, acceptLoopBody, hl, hc],
               by simp [httpServerRunner.Run, runGoroutine, acceptLoopBody, hl, hc]⟩
      | false =>
        cases hb : r.onError srvErr with
        | returns =>
          exact ⟨by simp [httpServerRunner.Run, runGoroutine, acceptLoopBody, hl, hc, hb],
                 by simp [httpServerRunner.Run, runGoroutine, acceptLoopBody, hl, hc, hb]⟩
        | panics rvr =>
          exact ⟨by simp [httpServerRunner.Run, runGoroutine, acceptLoopBody, hl, hc, hb, h rvr],
                 by simp [httpServerRunner.Run, runGoroutine, acceptLoopBody, hl, hc, hb, h rvr]⟩

/-- Witness for C4: the error sink of a concrete runner panics while
handling a bind failure; the panic sink receives the panic and nothing
escapes. -/
theorem accept_loop_panic_recovery_witness :
    (match sampleRunner.server.listenAndServe with
     | .panicked rvr =>
       (sampleRunner.Run Ctx.background).goroutine.onPanicCalls =
         [((sampleRunner.Run Ctx.background).completionCtx, rvr)]
     | .ok none => (sampleRunner.Run Ctx.background).goroutine.onPanicCalls = []
     | .ok (some srvErr) =>
       if srvErr.is GoErr.serverClosed then
         (sampleRunner.Run Ctx.background).goroutine.onPanicCalls = []
       else
         match sampleRunner.onError srvErr with
         | .returns => (sampleRunner.Run Ctx.background).goroutine.onPanicCalls = []
         | .panics rvr =>
           (sampleRunner.Run Ctx.background).goroutine.onPanicCalls =
             [((sampleRunner.Run Ctx.background).completionCtx, rvr)]) ∧
    (sampleRunner.Run Ctx.background).goroutine.propagated = none :=
  accept_loop_panic_recovery sampleRunner Ctx.background (fun _ => rfl)

/-! ### Claim theorems: rendering, decoding, context values -/

/-- C8: for every render-with-body call with a non-nil body renderer,
RenderHeader and RenderBody are both invoked (RenderBody even when
RenderHeader returned an error), the given status code is written to
the response regardless of renderer errors, and the returned error is
nil exactly when both renderer calls succeed - the header error alone
when only it failed, and the errors.Join of the non-nil errors whenever
the body call failed. -/
theorem render_with_body_invocations (hasResPtr : Bool)
    (w : ResponseWriter) (statusCode : Int)
    (br : ResponseBodyRenderer) (cause : Option GoErr) :
    (renderWithBody hasResPtr w statusCode (some br) cause).headerRendered = true ∧
    (renderWithBody hasResPtr w statusCode (some br) cause).bodyRendered = true ∧
    (renderWithBody hasResPtr w statusCode (some br) cause).writer.status = some statusCode ∧
    ((renderWithBody hasResPtr w statusCode (some br) cause).err = none ↔
      ((br.renderHeader w.header).2 = none ∧ br.renderBody.2 = none)) ∧
    (renderWithBody hasResPtr w statusCode (some br) cause).err =
      (match (br.renderHeader w.header).2, br.renderBody.2 with
       | none, none => none
       | some he, none => some he
       | he, some be => errorsJoin [he, some be]) := by
  cases hh : (br.renderHeader w.header).2 <;>
    cases hbo : br.renderBody.2 <;>
      simp [renderWithBody, renderResponse, responseBodyWriter.write,
        errorsJoin, hh, hbo]

/-- Reading the index right past a list returns the appended element. -/
theorem listGetD_append_len {α : Type} (xs : List α) (a d : α) :
    listGetD (xs ++ [a]) xs.length d = a := by
  induction xs with
  | nil => rfl
  | cons x xs ih => simpa [listGetD] using ih

/-- The index right past the original list is untouched by a set inside
the original list. -/
theorem listGetD_listSet_append {α : Type} (xs : List α) (a d b : α)
    (q : Nat) (hq : q < xs.length) :
    listGetD (listSet (xs ++ [a]) q b) xs.length d = a := by
  induction xs generalizing q with
  | nil => simp at hq
  | cons x xs ih =>
    cases q with
    | zero =>
      simp [List.cons_append, listSet, listGetD, listGetD_append_len]
    | succ q2 =>
      have hq2 : q2 < xs.length := by simpa using hq
      simp [List.cons_append, listSet, listGetD, ih q2 hq2]

/-- Decoding a JSON null leaves the destination value unchanged. -/
theorem decodeInto_null (ty : GoTy) (cur : GoVal) :
    decodeInto ty cur Json.null = .ok cur := by
  cases ty <;> rfl

/-- C9: whenever DecodeJSONRequestBody returns a non-nil error (body
beyond DefaultMaxRequestBodySize, empty or malformed body, wrong JSON
kind, unknown object field), the value returned with it is the zero
value of T - stated contrapositively: the result is the zero value or
the error is nil; and decoding the JSON literal null, at any body
length within the limit, succeeds and also yields the zero value. -/
theorem decode_json_zero_on_error_and_null (ty : GoTy)
    (body : RequestBody) (n : Nat) :
    ((DecodeJSONRequestBody ty body).1 = ty.zero ∨
      (DecodeJSONRequestBody ty body).2 = none) ∧
    DecodeJSONRequestBody ty
      { len := min n DefaultMaxRequestBodySize, parsed := some Json.null } =
      (ty.zero, none) := by
  constructor
  · by_cases hl : DefaultMaxRequestBodySize < body.len
    · exact Or.inl (by simp [DecodeJSONRequestBody, hl])
    · cases hp : body.parsed with
      | none => exact Or.inl (by simp [DecodeJSONRequestBody, hl, hp])
      | some j =>
        cases hd : decodeInto ty ty.zero j with
        | error msg =>
          exact Or.inl (by simp [DecodeJSONRequestBody, hl, hp, hd])
        | ok v =>
          exact Or.inr (by simp [DecodeJSONRequestBody, hl, hp, hd])
  · have hle : ¬ DefaultMaxRequestBodySize < min n DefaultMaxRequestBodySize :=
      Nat.not_lt.mpr (Nat.min_le_right n DefaultMaxRequestBodySize)
    simp [DecodeJSONRequestBody, hle, decodeInto_null]

/-- C10: after WithRequestLog, GetRequestLogFromContext returns the
stored value; because WithRequestLog stores a copy, overwriting the
cell that held the caller variable after storing does not change what
is later read; and on a context with no stored request log, or a stored
value of another type, the zero RequestLog is returned. -/
theorem with_request_log_roundtrip (h : Heap) (ctx : VCtx)
    (l : RequestLog) (q : Nat) (l2 : RequestLog)
    (hq : q < h.cells.length)
    (hMiss : Heap) (ctxMiss : VCtx)
    (hMissVal : ctxMiss.value contextKey.requestLog = none)
    (hWrong : Heap) (ctxWrong : VCtx) (tag : String)
    (hWrongVal : ctxWrong.value contextKey.requestLog =
      some (CtxValue.otherValue tag)) :
    GetRequestLogFromContext (WithRequestLog h ctx l).1
      (WithRequestLog h ctx l).2 = l ∧
    GetRequestLogFromContext
      (Heap.write (WithRequestLog h ctx (h.read q)).1 q l2)
      (WithRequestLog h ctx (h.read q)).2 = h.read q ∧
    GetRequestLogFromContext hMiss ctxMiss = RequestLog.zero ∧
    GetRequestLogFromContext hWrong ctxWrong = RequestLog.zero := by
  refine ⟨?_, ?_, ?_, ?_⟩
  · simp [GetRequestLogFromContext, WithRequestLog, Heap.alloc,
      Heap.read, VCtx.value, listGetD_append_len]
  · simp [GetRequestLogFromContext, WithRequestLog, Heap.alloc,
      Heap.write, Heap.read, VCtx.value, listGetD_listSet_append _ _ _ _ _ hq]
  · simp [GetRequestLogFromContext, hMissVal]
  · simp [GetRequestLogFromContext, hWrongVal]

/-- A concrete RequestLog used by the C10 witness. -/
def sampleLog : RequestLog :=
  { RequestLog.zero with method := "GET", host := "example.com" }

/-- Witness for C10 on a one-cell heap: store, mutate the original
cell, read back; plus the missing-value and wrong-type cases. -/
theorem with_request_log_roundtrip_witness :
    GetRequestLogFromContext
      (WithRequestLog { cells := [sampleLog] } VCtx.base sampleLog).1
      (WithRequestLog { cells := [sampleLog] } VCtx.base sampleLog).2 = sampleLog ∧
    GetRequestLogFromContext
      (Heap.write
        (WithRequestLog { cells := [sampleLog] } VCtx.base
          (Heap.read { cells := [sampleLog] } 0)).1 0 RequestLog.zero)
      (WithRequestLog { cells := [sampleLog] } VCtx.base
        (Heap.read { cells := [sampleLog] } 0)).2 =
      Heap.read { cells := [sampleLog] } 0 ∧
    GetRequestLogFromContext { cells := [] } VCtx.base = RequestLog.zero ∧
    GetRequestLogFromContext { cells := [] }
      (VCtx.withValue VCtx.base contextKey.requestLog
        (CtxValue.otherValue "wrong value")) = RequestLog.zero :=
  with_request_log_roundtrip { cells := [sampleLog] } VCtx.base sampleLog
    0 RequestLog.zero (by decide) { cells := [] } VCtx.base rfl
    { cells := [] }
    (VCtx.withValue VCtx.base contextKey.requestLog
      (CtxValue.otherValue "wrong value")) "wrong value" rfl

end GoHttplib
